import Mathlib

/-!
Shallow embedding of the repository's git synchronization subsystem
(`src/lib/git.ts`) and its HTTP facade (`src/routes/sync.ts`).

External command execution is modelled by an environment function
`env : List String → ExecResult` mapping a git argument list to the raw
process outcome (exit code, stdout, stderr).  The JavaScript string
operations used by the source (`trim`, `split`, `slice`, `includes`,
`parseInt`) are modelled at the character-list level, restricted to the
ASCII inputs git produces.
-/

namespace LibEditor

/-- JavaScript `a || b` on strings: `b` when `a` is empty, else `a`.
Used by the source as `stderr || stdout`. -/
def jsOr (a b : String) : String := if a = "" then b else a

/-- Remove leading and trailing whitespace from a character list
(model of JavaScript `String.prototype.trim` on ASCII input). -/
def trimChars (l : List Char) : List Char :=
  ((l.dropWhile Char.isWhitespace).reverse.dropWhile Char.isWhitespace).reverse

/-- Model of JavaScript `s.trim()`. -/
def jsTrim (s : String) : String := String.mk (trimChars s.toList)

/-- Model of JavaScript `s.includes(pat)`. -/
def jsIncludes (s pat : String) : Bool := decide (pat.toList <:+: s.toList)

mutual
/-- Inside a non-whitespace segment of a `split(/\s+/)`: `acc` holds the
segment's characters so far, reversed. -/
def splitWsSeg (acc : List Char) : List Char → List (List Char)
  | [] => [acc.reverse]
  | c :: cs =>
    if c.isWhitespace then acc.reverse :: splitWsGap cs
    else splitWsSeg (c :: acc) cs

/-- Inside a whitespace run of a `split(/\s+/)`. -/
def splitWsGap : List Char → List (List Char)
  | [] => [[]]
  | c :: cs =>
    if c.isWhitespace then splitWsGap cs
    else splitWsSeg [c] cs
end

/-- Model of JavaScript `s.split(/\s+/)`: maximal whitespace runs separate
the segments; a leading (resp. trailing) run contributes a leading
(resp. trailing) empty segment, and `"".split` is `[""]`. -/
def jsSplitWs (s : String) : List String :=
  match s.toList with
  | [] => [""]
  | c :: cs =>
    (if c.isWhitespace then ([] : List Char) :: splitWsGap cs
     else splitWsSeg [c] cs).map String.mk

/-- Numeric value of a decimal digit character. -/
def digitVal (c : Char) : Nat := c.toNat - 48

/-- The natural number denoted by a list of decimal digits, most
significant first. -/
def parseDigits (l : List Char) : Nat :=
  l.foldl (fun n c => 10 * n + digitVal c) 0

/-- Model of JavaScript `parseInt(s, 10)` on the unsigned inputs the code
feeds it (`git rev-list --count` output, already trimmed): the longest
decimal-digit prefix is parsed; `none` models the `NaN` result when there
is none. -/
def jsParseInt (s : String) : Option Nat :=
  let ds := s.toList.takeWhile Char.isDigit
  if ds.isEmpty then none else some (parseDigits ds)

/-- Raw outcome of spawning one external command. -/
structure ExecResult where
  exitCode : Int
  stdout : String
  stderr : String
  deriving DecidableEq

/-- Result shape of `gitSafe` in the source: `ok` iff exit code zero,
both streams trimmed. -/
structure CommandOutcome where
  ok : Bool
  stdout : String
  stderr : String
  deriving DecidableEq

/-- The structured error thrown by the strict runner (`class GitError`). -/
structure GitError where
  args : List String
  exitCode : Int
  stdout : String
  stderr : String
  deriving DecidableEq

/-- `SyncStatus` of the source.  `ahead`/`behind` are `Option Nat`:
`none` models the JavaScript `NaN` that `parseInt` can produce on
malformed output. -/
structure SyncStatus where
  dirty : Bool
  ahead : Option Nat
  behind : Option Nat
  changedFiles : List String
  deriving DecidableEq

structure PullResult where
  success : Bool
  error : Option String
  deriving DecidableEq

structure PushResult where
  success : Bool
  sha : Option String
  error : Option String
  deriving DecidableEq

/-- `booksPath()` and `configPath()` from `db.ts`: the two tracked
data-file paths, relative to the repository root. -/
def dataFiles : List String := ["data/books.json", "data/config.json"]

/-- Strict runner `git(args)`: throws a `GitError` on non-zero exit,
otherwise returns trimmed stdout. -/
def git (r : ExecResult) (args : List String) : Except GitError String :=
  if r.exitCode ≠ 0 then
    .error ⟨args, r.exitCode, jsTrim r.stdout, jsTrim r.stderr⟩
  else
    .ok (jsTrim r.stdout)

/-- Safe runner `gitSafe(args)`: never throws; `ok` iff exit code zero,
streams trimmed. -/
def gitSafe (r : ExecResult) : CommandOutcome :=
  ⟨r.exitCode == 0, jsTrim r.stdout, jsTrim r.stderr⟩

def statusArgs : List String := ["status", "--porcelain"] ++ dataFiles

def revListArgs : List String :=
  ["rev-list", "--left-right", "--count", "HEAD...@{u}"]

/-- `status()` from `src/lib/git.ts`.  The porcelain status is obtained
with the strict runner (its failure propagates); each non-empty line is
mapped through `slice(3).trim()`; ahead/behind come from a safe
`rev-list --left-right --count`, defaulting to 0 on failure. -/
def status (env : List String → ExecResult) : Except GitError SyncStatus :=
  match git (env statusArgs) statusArgs with
  | .error e => .error e
  | .ok porcelain =>
    let changedFiles :=
      ((porcelain.toList.splitOn '\n').filter (fun l => !l.isEmpty)).map
        (fun line => String.mk (trimChars (line.drop 3)))
    let revResult := gitSafe (env revListArgs)
    let ab : Option Nat × Option Nat :=
      if revResult.ok then
        let parts := jsSplitWs revResult.stdout
        (jsParseInt (parts.getD 0 "0"), jsParseInt (parts.getD 1 "0"))
      else (some 0, some 0)
    .ok { dirty := decide (0 < changedFiles.length)
          ahead := ab.1
          behind := ab.2
          changedFiles := changedFiles }

def fetchArgs : List String := ["fetch"]

def pullFFArgs : List String := ["pull", "--ff-only"]

/-- `pull()` from `src/lib/git.ts`: safe fetch, then safe `pull --ff-only`,
short-circuiting with the corresponding error message. -/
def pull (env : List String → ExecResult) : PullResult :=
  let fetchResult := gitSafe (env fetchArgs)
  if !fetchResult.ok then
    { success := false
      error := some ("git fetch failed: " ++ jsOr fetchResult.stderr fetchResult.stdout) }
  else
    let pullResult := gitSafe (env pullFFArgs)
    if !pullResult.ok then
      { success := false
        error := some ("git pull --ff-only failed: " ++ jsOr pullResult.stderr pullResult.stdout) }
    else
      { success := true, error := none }

def stageArgs : List String := ["add"] ++ dataFiles

def commitArgs (msg : String) : List String := ["commit", "-m", msg]

def pushLeaseArgs : List String := ["push", "--force-with-lease"]

def revParseArgs : List String := ["rev-parse", "--short", "HEAD"]

/-- `push(commitMessage)` from `src/lib/git.ts`, paired with the trace of
git argument lists actually issued, in order: strict `add` of the two data
files, safe `commit -m`, safe `push --force-with-lease`, strict
`rev-parse --short HEAD`.  A commit failure whose (trimmed) stdout or
stderr contains "nothing to commit" is skipped gracefully. -/
def push (env : List String → ExecResult) (commitMessage : String) :
    Except GitError PushResult × List (List String) :=
  match git (env stageArgs) stageArgs with
  | .error e => (.error e, [stageArgs])
  | .ok _ =>
    let commitResult := gitSafe (env (commitArgs commitMessage))
    if !commitResult.ok
        && !(jsIncludes commitResult.stdout "nothing to commit")
        && !(jsIncludes commitResult.stderr "nothing to commit") then
      (.ok { success := false, sha := none
             error := some ("git commit failed: " ++ jsOr commitResult.stderr commitResult.stdout) },
       [stageArgs, commitArgs commitMessage])
    else
      let pushResult := gitSafe (env pushLeaseArgs)
      if !pushResult.ok then
        (.ok { success := false, sha := none
               error := some ("git push failed: " ++ jsOr pushResult.stderr pushResult.stdout) },
         [stageArgs, commitArgs commitMessage, pushLeaseArgs])
      else
        match git (env revParseArgs) revParseArgs with
        | .error e =>
          (.error e, [stageArgs, commitArgs commitMessage, pushLeaseArgs, revParseArgs])
        | .ok sha =>
          (.ok { success := true, sha := some sha, error := none },
           [stageArgs, commitArgs commitMessage, pushLeaseArgs, revParseArgs])

/-- Which of the three git operations the facade invoked (`opPush` records
the commit message handed to `push`). -/
inductive SyncOp where
  | opStatus : SyncOp
  | opPull : SyncOp
  | opPush (message : String) : SyncOp
  deriving DecidableEq

/-- The JSON (or plain-text) body of the facade's HTTP response. -/
inductive ResponseBody where
  | statusBody (s : SyncStatus)
  | pullBody (r : PullResult)
  | pushBody (r : PushResult)
  | notFound
  deriving DecidableEq

structure HttpResponse where
  statusCode : Nat
  body : ResponseBody
  deriving DecidableEq

/-- An incoming request as `handleSync` observes it: the HTTP method, the
URL pathname, and the `message` field of the parsed JSON body when one is
present. -/
structure SyncRequest where
  method : String
  pathname : String
  message : Option String
  deriving DecidableEq

/-- The push handler's `body.message?.trim() || "Update catalogue"`:
an absent message, or one that trims to the empty string, falls back to
the fixed default; otherwise the trimmed message is used. -/
def resolveMessage (m : Option String) : String :=
  match m with
  | none => "Update catalogue"
  | some m => jsOr (jsTrim m) "Update catalogue"

/-- `handleSync(req)` from `src/routes/sync.ts`, paired with the list of
git operations invoked.  A thrown `GitError` propagates out of the
handler. -/
def handleSync (env : List String → ExecResult) (req : SyncRequest) :
    Except GitError (HttpResponse × List SyncOp) :=
  if req.method = "GET" ∧ req.pathname = "/api/sync/status" then
    match status env with
    | .error e => .error e
    | .ok s => .ok (⟨200, .statusBody s⟩, [.opStatus])
  else if req.method = "POST" ∧ req.pathname = "/api/sync/pull" then
    let result := pull env
    .ok (⟨if result.success then 200 else 409, .pullBody result⟩, [.opPull])
  else if req.method = "POST" ∧ req.pathname = "/api/sync/push" then
    let message := resolveMessage req.message
    match push env message with
    | (.error e, _) => .error e
    | (.ok r, _) => .ok (⟨if r.success then 200 else 409, .pushBody r⟩, [.opPush message])
  else
    .ok (⟨404, .notFound⟩, [])

instance {ε α : Type} [DecidableEq ε] [DecidableEq α] : DecidableEq (Except ε α) := fun
  | .error e, .error f => decidable_of_iff (e = f) (by simp)
  | .error _, .ok _ => isFalse (by simp)
  | .ok _, .error _ => isFalse (by simp)
  | .ok a, .ok b => decidable_of_iff (a = b) (by simp)

-- ── Concrete environments used to exercise the model ────────────────────

/-- An environment with one untracked data file and no upstream. -/
def envUntracked : List String → ExecResult := fun args =>
  if args = statusArgs then ⟨0, "?? data/books.json\n", ""⟩ else ⟨1, "", ""⟩

/-- An environment whose fetch fails with stderr "boom". -/
def envFetchFail : List String → ExecResult := fun args =>
  if args = fetchArgs then ⟨1, "", "boom"⟩ else ⟨0, "", ""⟩

/-- An environment whose pull --ff-only step fails (diverged history). -/
def envDiverged : List String → ExecResult := fun args =>
  if args = pullFFArgs then ⟨1, "", "fatal: Not possible to fast-forward, aborting."⟩
  else ⟨0, "", ""⟩

/-- An environment where both pull steps succeed. -/
def envCleanPull : List String → ExecResult := fun _ => ⟨0, "", ""⟩

/-- An environment with the first porcelain line starting with a space:
one worktree-modified (unstaged) tracked file, the most common dirty
state. -/
def envWorktreeModified : List String → ExecResult := fun args =>
  if args = statusArgs then ⟨0, " M data/books.json\n", ""⟩ else ⟨1, "", ""⟩

/-- An environment with a clean working tree and an upstream relation of
3 commits ahead, 5 behind. -/
def envAheadBehind : List String → ExecResult := fun args =>
  if args = statusArgs then ⟨0, "", ""⟩
  else if args = revListArgs then ⟨0, "3\t5\n", ""⟩
  else ⟨1, "", ""⟩

/-- An environment in which the data files have no pending changes: the
commit step fails with git's "nothing to commit" message, everything else
succeeds. -/
def envNothingToCommit : List String → ExecResult := fun args =>
  if args = commitArgs "backup" then
    ⟨1, "nothing to commit, working tree clean\n", ""⟩
  else if args = revParseArgs then ⟨0, "abc1234\n", ""⟩
  else ⟨0, "", ""⟩

/-- An environment where staging fails (broken checkout). -/
def envStageFail : List String → ExecResult := fun args =>
  if args = stageArgs then ⟨1, "", "fatal: not a git repository"⟩ else ⟨0, "", ""⟩

-- ── Theorems ─────────────────────────────────────────────────────────────

/-- C1: for every result returned by `status()`, the `dirty` flag equals
the non-emptiness of `changedFiles`. -/
theorem status_dirty_iff_changedFiles_nonempty
    (env : List String → ExecResult) (s : SyncStatus)
    (h : status env = .ok s) :
    s.dirty = true ↔ 0 < s.changedFiles.length := by
  rw [status] at h
  cases hg : git (env statusArgs) statusArgs <;> rw [hg] at h
  · exact absurd h (by simp)
  · simp only [Except.ok.injEq] at h
    subst h
    simp

/-- Witness for C1 at a concrete environment. -/
theorem status_dirty_iff_changedFiles_nonempty_witness :
    (⟨true, some 0, some 0, ["data/books.json"]⟩ : SyncStatus).dirty = true ↔
      0 < (⟨true, some 0, some 0, ["data/books.json"]⟩ : SyncStatus).changedFiles.length :=
  status_dirty_iff_changedFiles_nonempty envUntracked _ (by decide)

/-- C3 counterexample: when fetch fails with stderr "boom", the code
returns error "git fetch failed: boom", not "fetch failed: boom" as the
claim states. -/
theorem pull_fetch_error_prefix_counterexample :
    pull envFetchFail = ⟨false, some "git fetch failed: boom"⟩ ∧
      (pull envFetchFail).error ≠ some ("fetch failed: " ++ "boom") := by
  decide

/-- C3 (amended): the failure messages carry the prefixes
"git fetch failed: " and "git pull --ff-only failed: "; otherwise
`pull()` returns success. -/
theorem pull_error_messages (env : List String → ExecResult) :
    ((env fetchArgs).exitCode ≠ 0 →
      pull env = ⟨false, some ("git fetch failed: " ++
        jsOr (jsTrim (env fetchArgs).stderr) (jsTrim (env fetchArgs).stdout))⟩) ∧
    ((env fetchArgs).exitCode = 0 → (env pullFFArgs).exitCode ≠ 0 →
      pull env = ⟨false, some ("git pull --ff-only failed: " ++
        jsOr (jsTrim (env pullFFArgs).stderr) (jsTrim (env pullFFArgs).stdout))⟩) ∧
    ((env fetchArgs).exitCode = 0 → (env pullFFArgs).exitCode = 0 →
      pull env = ⟨true, none⟩) := by
  refine ⟨fun h => ?_, fun h1 h2 => ?_, fun h1 h2 => ?_⟩ <;>
    simp_all [pull, gitSafe]

/-- Witness for the amended C3 at three concrete environments, one per
branch. -/
theorem pull_error_messages_witness :
    pull envFetchFail = ⟨false, some ("git fetch failed: " ++
        jsOr (jsTrim (envFetchFail fetchArgs).stderr) (jsTrim (envFetchFail fetchArgs).stdout))⟩ ∧
    pull envDiverged = ⟨false, some ("git pull --ff-only failed: " ++
        jsOr (jsTrim (envDiverged pullFFArgs).stderr) (jsTrim (envDiverged pullFFArgs).stdout))⟩ ∧
    pull envCleanPull = ⟨true, none⟩ :=
  ⟨(pull_error_messages envFetchFail).1 (by decide),
   (pull_error_messages envDiverged).2.1 (by decide) (by decide),
   (pull_error_messages envCleanPull).2.2 (by decide) (by decide)⟩

/-- C7 fails on the code: for porcelain output " M data/books.json\n"
(one worktree-modified tracked file) the strict runner's global `trim()`
already removed the first line's leading space, so `slice(3)` cuts into
the path and `changedFiles` is `["ata/books.json"]` instead of
`["data/books.json"]`. -/
theorem status_first_line_path_mangled :
    status envWorktreeModified =
      Except.ok ⟨true, some 0, some 0, ["ata/books.json"]⟩ ∧
    ("ata/books.json" : String) ≠ "data/books.json" := by
  decide

theorem isWhitespace_eq_false_of_isDigit (c : Char) (h : c.isDigit = true) :
    c.isWhitespace = false := by
  cases hw : c.isWhitespace with
  | false => rfl
  | true =>
    exfalso
    simp only [Char.isWhitespace, decide_eq_true_eq, Bool.or_eq_true] at hw
    rcases hw with ((h1 | h1) | h1) | h1 <;> subst h1 <;> exact absurd h (by decide)

theorem splitWsSeg_no_ws (l : List Char) (acc : List Char)
    (h : ∀ c ∈ l, c.isWhitespace = false) :
    splitWsSeg acc l = [acc.reverse ++ l] := by
  induction l generalizing acc with
  | nil => simp [splitWsSeg]
  | cons c cs ih =>
    rw [splitWsSeg, h c (List.mem_cons_self c cs)]
    rw [ih (c :: acc) (fun x hx => h x (List.mem_cons_of_mem c hx))]
    simp

theorem splitWsSeg_reaches_ws (la : List Char) (c : Char) (lb : List Char)
    (acc : List Char)
    (ha : ∀ x ∈ la, x.isWhitespace = false) (hc : c.isWhitespace = true) :
    splitWsSeg acc (la ++ c :: lb) = (acc.reverse ++ la) :: splitWsGap lb := by
  induction la generalizing acc with
  | nil => simp [splitWsSeg, hc]
  | cons d ds ih =>
    rw [List.cons_append, splitWsSeg, ha d (List.mem_cons_self d ds)]
    rw [ih (d :: acc) (fun x hx => ha x (List.mem_cons_of_mem d hx))]
    simp

theorem jsSplitWs_two_segments (la lb : List Char) (c : Char)
    (ha : la ≠ []) (hb : lb ≠ [])
    (hwa : ∀ x ∈ la, x.isWhitespace = false)
    (hwb : ∀ x ∈ lb, x.isWhitespace = false)
    (hc : c.isWhitespace = true) :
    jsSplitWs (String.mk (la ++ c :: lb)) = [String.mk la, String.mk lb] := by
  cases la with
  | nil => exact absurd rfl ha
  | cons d ds =>
    cases lb with
    | nil => exact absurd rfl hb
    | cons e es =>
      rw [jsSplitWs]
      simp only [String.toList, List.cons_append]
      rw [hwa d (List.mem_cons_self d ds)]
      simp only [Bool.false_eq_true, if_false]
      rw [splitWsSeg_reaches_ws ds c (e :: es) [d]
        (fun x hx => hwa x (List.mem_cons_of_mem d hx)) hc]
      rw [splitWsGap, hwb e (List.mem_cons_self e es)]
      simp only [Bool.false_eq_true, if_false]
      rw [splitWsSeg_no_ws es [e] (fun x hx => hwb x (List.mem_cons_of_mem e hx))]
      simp

theorem jsParseInt_digits (l : List Char) (hne : l ≠ [])
    (hd : ∀ x ∈ l, x.isDigit = true) :
    jsParseInt (String.mk l) = some (parseDigits l) := by
  rw [jsParseInt]
  have ht : l.takeWhile Char.isDigit = l := List.takeWhile_eq_self_iff.mpr hd
  simp only [String.toList, ht]
  rw [if_neg (by simpa [List.isEmpty_iff] using hne)]

/-- C6: if the ahead/behind `rev-list` command fails, `status()` returns
`ahead = behind = 0` and no error; if it succeeds and its trimmed output
is two whitespace-separated runs of decimal digits, `status()` parses the
first as `ahead` and the second as `behind`. -/
theorem status_ahead_behind (env : List String → ExecResult) (s : SyncStatus)
    (la lb : List Char) (c : Char)
    (h : status env = .ok s) :
    ((gitSafe (env revListArgs)).ok = false →
      s.ahead = some 0 ∧ s.behind = some 0) ∧
    ((gitSafe (env revListArgs)).ok = true →
      (gitSafe (env revListArgs)).stdout = String.mk (la ++ c :: lb) →
      la ≠ [] → lb ≠ [] →
      (∀ x ∈ la, x.isDigit = true) → (∀ x ∈ lb, x.isDigit = true) →
      c.isWhitespace = true →
      s.ahead = some (parseDigits la) ∧ s.behind = some (parseDigits lb)) := by
  rw [status] at h
  cases hg : git (env statusArgs) statusArgs <;> rw [hg] at h
  · exact absurd h (by simp)
  · simp only [Except.ok.injEq] at h
    subst h
    constructor
    · intro hok
      simp [hok]
    · intro hok hout hla hlb hda hdb hc
      have hwa : ∀ x ∈ la, x.isWhitespace = false :=
        fun x hx => isWhitespace_eq_false_of_isDigit x (hda x hx)
      have hwb : ∀ x ∈ lb, x.isWhitespace = false :=
        fun x hx => isWhitespace_eq_false_of_isDigit x (hdb x hx)
      simp only [hok, if_true, hout,
        jsSplitWs_two_segments la lb c hla hlb hwa hwb hc]
      constructor
      · simpa using jsParseInt_digits la hla hda
      · simpa using jsParseInt_digits lb hlb hdb

/-- Witness for C6: the no-upstream environment gives ahead = behind = 0,
and the "3\t5" environment parses ahead = 3, behind = 5. -/
theorem status_ahead_behind_witness :
    ((⟨true, some 0, some 0, ["data/books.json"]⟩ : SyncStatus).ahead = some 0 ∧
     (⟨true, some 0, some 0, ["data/books.json"]⟩ : SyncStatus).behind = some 0) ∧
    ((⟨false, some 3, some 5, []⟩ : SyncStatus).ahead = some (parseDigits ['3']) ∧
     (⟨false, some 3, some 5, []⟩ : SyncStatus).behind = some (parseDigits ['5'])) :=
  ⟨(status_ahead_behind envUntracked _ ['3'] ['5'] '\t' (by decide)).1 (by decide),
   (status_ahead_behind envAheadBehind _ ['3'] ['5'] '\t' (by decide)).2
     (by decide) (by decide) (by decide) (by decide)
     (by decide) (by decide) (by decide)⟩

/-- C2: when staging succeeds and the commit step fails with a
"nothing to commit" signal in its (trimmed) stdout or stderr, `push()`
does not treat the failure as an error: it continues to the push step,
and when the push and hash read succeed it returns `success = true`. -/
theorem push_nothing_to_commit_succeeds (env : List String → ExecResult)
    (msg : String)
    (hstage : (env stageArgs).exitCode = 0)
    (hcommit : (gitSafe (env (commitArgs msg))).ok = false)
    (hsignal :
      jsIncludes (gitSafe (env (commitArgs msg))).stdout "nothing to commit" = true ∨
      jsIncludes (gitSafe (env (commitArgs msg))).stderr "nothing to commit" = true)
    (hpush : (env pushLeaseArgs).exitCode = 0)
    (hrev : (env revParseArgs).exitCode = 0) :
    (push env msg).1 =
      Except.ok ⟨true, some (jsTrim (env revParseArgs).stdout), none⟩ ∧
    pushLeaseArgs ∈ (push env msg).2 := by
  have hg : git (env stageArgs) stageArgs = .ok (jsTrim (env stageArgs).stdout) := by
    rw [git, if_neg (by simp [hstage])]
  have hcond : (!(gitSafe (env (commitArgs msg))).ok
      && !(jsIncludes (gitSafe (env (commitArgs msg))).stdout "nothing to commit")
      && !(jsIncludes (gitSafe (env (commitArgs msg))).stderr "nothing to commit"))
      = false := by
    rcases hsignal with h | h <;> simp [h]
  have hpok : (gitSafe (env pushLeaseArgs)).ok = true := by
    simp [gitSafe, hpush]
  have hr : git (env revParseArgs) revParseArgs =
      .ok (jsTrim (env revParseArgs).stdout) := by
    rw [git, if_neg (by simp [hrev])]
  rw [push, hg]
  simp only [hcond, Bool.false_eq_true, if_false, hpok, Bool.not_true, hr]
  simp

/-- Witness for C2 at a concrete environment. -/
theorem push_nothing_to_commit_succeeds_witness :
    (push envNothingToCommit "backup").1 =
      Except.ok ⟨true, some (jsTrim (envNothingToCommit revParseArgs).stdout), none⟩ ∧
    pushLeaseArgs ∈ (push envNothingToCommit "backup").2 :=
  push_nothing_to_commit_succeeds envNothingToCommit "backup"
    (by decide) (by decide) (Or.inl (by decide)) (by decide) (by decide)

/-- C4: `push()` issues, in order, at most: strict `add` of the two data
file paths, safe `commit -m msg`, safe lease-guarded
`push --force-with-lease`, strict `rev-parse --short HEAD`.  A staging
failure propagates as a thrown `GitError` (not a `PushResult`); a
successful result ran all four commands and carries the short hash; no
issued command is a `pull` or a `fetch`. -/
theorem push_command_order (env : List String → ExecResult) (msg : String) :
    ((push env msg).2 = [stageArgs] ∨
     (push env msg).2 = [stageArgs, commitArgs msg] ∨
     (push env msg).2 = [stageArgs, commitArgs msg, pushLeaseArgs] ∨
     (push env msg).2 = [stageArgs, commitArgs msg, pushLeaseArgs, revParseArgs]) ∧
    ((env stageArgs).exitCode ≠ 0 →
      (push env msg).1 = Except.error
        ⟨stageArgs, (env stageArgs).exitCode,
         jsTrim (env stageArgs).stdout, jsTrim (env stageArgs).stderr⟩ ∧
      (push env msg).2 = [stageArgs]) ∧
    (∀ r : PushResult, (push env msg).1 = Except.ok r → r.success = true →
      (push env msg).2 = [stageArgs, commitArgs msg, pushLeaseArgs, revParseArgs] ∧
      r.sha = some (jsTrim (env revParseArgs).stdout)) ∧
    (∀ c ∈ (push env msg).2, c.head? ≠ some "pull" ∧ c.head? ≠ some "fetch") := by
  have hside : ∀ c ∈ [stageArgs, commitArgs msg, pushLeaseArgs, revParseArgs],
      c.head? ≠ some "pull" ∧ c.head? ≠ some "fetch" := by
    intro c hc
    simp only [List.mem_cons, List.not_mem_nil, or_false] at hc
    rcases hc with rfl | rfl | rfl | rfl
    · exact ⟨by decide, by decide⟩
    · exact ⟨by simp [commitArgs], by simp [commitArgs]⟩
    · exact ⟨by decide, by decide⟩
    · exact ⟨by decide, by decide⟩
  by_cases hs : (env stageArgs).exitCode = 0
  · have hg : git (env stageArgs) stageArgs = .ok (jsTrim (env stageArgs).stdout) := by
      rw [git, if_neg (by simp [hs])]
    by_cases hcb : (!(gitSafe (env (commitArgs msg))).ok
        && !(jsIncludes (gitSafe (env (commitArgs msg))).stdout "nothing to commit")
        && !(jsIncludes (gitSafe (env (commitArgs msg))).stderr "nothing to commit"))
        = true
    · have he : push env msg =
          (.ok { success := false, sha := none
                 error := some ("git commit failed: " ++
                   jsOr (gitSafe (env (commitArgs msg))).stderr
                     (gitSafe (env (commitArgs msg))).stdout) },
           [stageArgs, commitArgs msg]) := by
        rw [push, hg]
        simp only [hcb, if_true]
      rw [he]
      refine ⟨Or.inr (Or.inl rfl), fun h => absurd hs h, ?_, ?_⟩
      · intro r hr hsucc
        simp only [Except.ok.injEq] at hr
        rw [← hr] at hsucc
        simp at hsucc
      · intro c hc
        exact hside c (by
          simp only [List.mem_cons, List.not_mem_nil, or_false] at hc ⊢
          tauto)
    · have hcb2 : (!(gitSafe (env (commitArgs msg))).ok
          && !(jsIncludes (gitSafe (env (commitArgs msg))).stdout "nothing to commit")
          && !(jsIncludes (gitSafe (env (commitArgs msg))).stderr "nothing to commit"))
          = false := by simpa using hcb
      by_cases hp : (env pushLeaseArgs).exitCode = 0
      · have hpok : (gitSafe (env pushLeaseArgs)).ok = true := by simp [gitSafe, hp]
        by_cases hrv : (env revParseArgs).exitCode = 0
        · have hr : git (env revParseArgs) revParseArgs =
              .ok (jsTrim (env revParseArgs).stdout) := by
            rw [git, if_neg (by simp [hrv])]
          have he : push env msg =
              (.ok { success := true, sha := some (jsTrim (env revParseArgs).stdout)
                     error := none },
               [stageArgs, commitArgs msg, pushLeaseArgs, revParseArgs]) := by
            rw [push, hg]
            simp only [hcb2, Bool.false_eq_true, if_false, hpok, Bool.not_true, hr]
          rw [he]
          refine ⟨Or.inr (Or.inr (Or.inr rfl)), fun h => absurd hs h, ?_, hside⟩
          intro r hr2 hsucc
          simp only [Except.ok.injEq] at hr2
          exact ⟨rfl, by rw [← hr2]⟩
        · have hr : git (env revParseArgs) revParseArgs = .error
              ⟨revParseArgs, (env revParseArgs).exitCode,
               jsTrim (env revParseArgs).stdout, jsTrim (env revParseArgs).stderr⟩ := by
            rw [git, if_pos (by simpa using hrv)]
          have he : push env msg =
              (.error ⟨revParseArgs, (env revParseArgs).exitCode,
                 jsTrim (env revParseArgs).stdout, jsTrim (env revParseArgs).stderr⟩,
               [stageArgs, commitArgs msg, pushLeaseArgs, revParseArgs]) := by
            rw [push, hg]
            simp only [hcb2, Bool.false_eq_true, if_false, hpok, Bool.not_true, hr]
          rw [he]
          refine ⟨Or.inr (Or.inr (Or.inr rfl)), fun h => absurd hs h, ?_, hside⟩
          intro r hr2 hsucc
          simp at hr2
      · have hpok : (gitSafe (env pushLeaseArgs)).ok = false := by simp [gitSafe, hp]
        have he : push env msg =
            (.ok { success := false, sha := none
                   error := some ("git push failed: " ++
                     jsOr (gitSafe (env pushLeaseArgs)).stderr
                       (gitSafe (env pushLeaseArgs)).stdout) },
             [stageArgs, commitArgs msg, pushLeaseArgs]) := by
          rw [push, hg]
          simp only [hcb2, Bool.false_eq_true, if_false, hpok, Bool.not_false, if_true]
        rw [he]
        refine ⟨Or.inr (Or.inr (Or.inl rfl)), fun h => absurd hs h, ?_, ?_⟩
        · intro r hr2 hsucc
          simp only [Except.ok.injEq] at hr2
          rw [← hr2] at hsucc
          simp at hsucc
        · intro c hc
          exact hside c (by
            simp only [List.mem_cons, List.not_mem_nil, or_false] at hc ⊢
            tauto)
  · have hg : git (env stageArgs) stageArgs = .error
        ⟨stageArgs, (env stageArgs).exitCode,
         jsTrim (env stageArgs).stdout, jsTrim (env stageArgs).stderr⟩ := by
      rw [git, if_pos (by simpa using hs)]
    have he : push env msg =
        (.error ⟨stageArgs, (env stageArgs).exitCode,
           jsTrim (env stageArgs).stdout, jsTrim (env stageArgs).stderr⟩,
         [stageArgs]) := by
      rw [push, hg]
    rw [he]
    refine ⟨Or.inl rfl, fun _ => ⟨rfl, rfl⟩, ?_, ?_⟩
    · intro r hr2 hsucc
      simp at hr2
    · intro c hc
      exact hside c (by
        simp only [List.mem_cons, List.not_mem_nil, or_false] at hc ⊢
        tauto)

/-- Witness for C4: at a failing-stage environment the error is thrown
after the single `add` command; at a clean environment all four commands
run and the short hash is returned. -/
theorem push_command_order_witness :
    ((push envStageFail "backup").1 = Except.error
       ⟨stageArgs, (envStageFail stageArgs).exitCode,
        jsTrim (envStageFail stageArgs).stdout,
        jsTrim (envStageFail stageArgs).stderr⟩ ∧
     (push envStageFail "backup").2 = [stageArgs]) ∧
    ((push envNothingToCommit "backup").2 =
       [stageArgs, commitArgs "backup", pushLeaseArgs, revParseArgs] ∧
     (⟨true, some "abc1234", none⟩ : PushResult).sha =
       some (jsTrim (envNothingToCommit revParseArgs).stdout)) :=
  ⟨(push_command_order envStageFail "backup").2.1 (by decide),
   (push_command_order envNothingToCommit "backup").2.2.1
     ⟨true, some "abc1234", none⟩ (by decide) rfl⟩

/-- C8: the push handler replaces an absent, empty or whitespace-only
message with the fixed default "Update catalogue" instead of rejecting
the request, invokes `push` with the default, and answers 200 when the
`PushResult` has `success = true`, 409 otherwise (body: the result). -/
theorem handleSync_push_default_message (env : List String → ExecResult)
    (m : Option String) (r : PushResult) (tr : List (List String))
    (hm : m = none ∨ ∃ s, m = some s ∧ jsTrim s = "")
    (hp : push env "Update catalogue" = (.ok r, tr)) :
    handleSync env ⟨"POST", "/api/sync/push", m⟩ =
      .ok (⟨if r.success then 200 else 409, .pushBody r⟩,
           [.opPush "Update catalogue"]) := by
  have hmsg : resolveMessage m = "Update catalogue" := by
    rcases hm with rfl | ⟨s, rfl, hs⟩
    · rfl
    · simp [resolveMessage, jsOr, hs]
  rw [handleSync, if_neg (by simp), if_neg (by simp), if_pos (by simp)]
  simp only [hmsg, hp]

/-- Witness for C8: a whitespace-only message on a clean repository is
replaced by the default and the request succeeds with 200. -/
theorem handleSync_push_default_message_witness :
    handleSync envNothingToCommit ⟨"POST", "/api/sync/push", some "   "⟩ =
      .ok (⟨200, .pushBody ⟨true, some "abc1234", none⟩⟩,
           [.opPush "Update catalogue"]) :=
  handleSync_push_default_message envNothingToCommit (some "   ")
    ⟨true, some "abc1234", none⟩
    [stageArgs, commitArgs "Update catalogue", pushLeaseArgs, revParseArgs]
    (Or.inr ⟨"   ", rfl, by decide⟩) (by decide)

/-- C9: a message whose trim is non-empty is passed to `push` trimmed
(not verbatim); the default is substituted only when the trimmed message
is empty. -/
theorem handleSync_push_trimmed_message (env : List String → ExecResult)
    (s : String) (r : PushResult) (tr : List (List String))
    (hs : jsTrim s ≠ "")
    (hp : push env (jsTrim s) = (.ok r, tr)) :
    handleSync env ⟨"POST", "/api/sync/push", some s⟩ =
      .ok (⟨if r.success then 200 else 409, .pushBody r⟩,
           [.opPush (jsTrim s)]) := by
  have hmsg : resolveMessage (some s) = jsTrim s := by
    simp [resolveMessage, jsOr, hs]
  rw [handleSync, if_neg (by simp), if_neg (by simp), if_pos (by simp)]
  simp only [hmsg, hp]

/-- Witness for C9: the message " fix typo " is passed to `push` as
"fix typo". -/
theorem handleSync_push_trimmed_message_witness :
    handleSync envNothingToCommit ⟨"POST", "/api/sync/push", some " fix typo "⟩ =
      .ok (⟨200, .pushBody ⟨true, some "abc1234", none⟩⟩,
           [.opPush (jsTrim " fix typo ")]) :=
  handleSync_push_trimmed_message envNothingToCommit " fix typo "
    ⟨true, some "abc1234", none⟩
    [stageArgs, commitArgs "fix typo", pushLeaseArgs, revParseArgs]
    (by decide) (by decide)

/-- C10: a request matching none of GET /api/sync/status,
POST /api/sync/pull, POST /api/sync/push gets a 404 response and no git
operation is invoked. -/
theorem handleSync_unmatched_404 (env : List String → ExecResult)
    (req : SyncRequest)
    (h1 : ¬(req.method = "GET" ∧ req.pathname = "/api/sync/status"))
    (h2 : ¬(req.method = "POST" ∧ req.pathname = "/api/sync/pull"))
    (h3 : ¬(req.method = "POST" ∧ req.pathname = "/api/sync/push")) :
    handleSync env req = .ok (⟨404, .notFound⟩, []) := by
  rw [handleSync, if_neg h1, if_neg h2, if_neg h3]

/-- Witness for C10 at a concrete unmatched request. -/
theorem handleSync_unmatched_404_witness :
    handleSync envNothingToCommit ⟨"DELETE", "/api/books", none⟩ =
      .ok (⟨404, .notFound⟩, []) :=
  handleSync_unmatched_404 envNothingToCommit ⟨"DELETE", "/api/books", none⟩
    (by decide) (by decide) (by decide)

end LibEditor
